import Mathlib

/-!
Verification development for the TM1637 protocol decoder (`src/pd.py`).

The decoder interprets a stream of events (`START`, `BITS`, `COMMAND`,
`DATA`, `STOP`) produced by an upstream bus decoder.  It classifies command
bytes by their top two bits, decodes bitfields, maps 7-segment patterns to
glyphs through a fixed font table, accumulates a per-transmission display
buffer, and emits annotation records.

The definitions below are a shallow embedding of the Python source:
module-level tables and enumeration classes keep their names; methods of the
`Decoder` class become functions from an explicit decoder state to a pair of
a new state and the list of records emitted by `self.put` calls during the
method.  Machine integers are `Nat` (Python ints are unbounded and all
values here are byte-sized); Python's `a & ~m` on non-negative ints is
modelled by `andNot` below.
-/

namespace TM1637

/- Enumeration of command register addresses, bits 6..7 (class `Command`). -/
namespace Command

def DATA : Nat := 0x40

def DISPLAY : Nat := 0x80

def ADDRESS : Nat := 0xC0

end Command

/- Range of command bits in a command (class `CommandBits`). -/
namespace CommandBits

def MIN : Nat := 6

def MAX : Nat := 7

end CommandBits

/- Data bits in a data command (class `DataBits`). -/
namespace DataBits

def RW : Nat := 1

def ADDR : Nat := 2

def MODE : Nat := 3

end DataBits

/- Range of display bits in a display command (class `DisplayBits`). -/
namespace DisplayBits

def MIN : Nat := 0

def MAX : Nat := 2

def SWITCH : Nat := 3

end DisplayBits

/- Range of address bits in an address command (class `AddressBits`). -/
namespace AddressBits

def MIN : Nat := 0

def MAX : Nat := 2

end AddressBits

/- Specific parameters (class `Params`). -/
namespace Params

def UNKNOWN_CHAR : String := "?"

end Params

/- Annotation indices for bits (class `AnnBits`, values `range(14)`). -/
namespace AnnBits

def RESERVED : Nat := 0

def WRITE : Nat := 1

def READ : Nat := 2

def DATA : Nat := 3

def DISPLAY : Nat := 4

def ADDRESS : Nat := 5

def AUTO : Nat := 6

def FIXED : Nat := 7

def NORMAL : Nat := 8

def TEST : Nat := 9

def DIGIT : Nat := 10

def CONTRAST : Nat := 11

def OFF : Nat := 12

def ON : Nat := 13

end AnnBits

/- Annotation indices for strings (class `AnnInfo`):
`(WARN, DISPLAY) = range(AnnBits.ON + 1, (AnnBits.ON + 1) + 2)`. -/
namespace AnnInfo

def WARN : Nat := AnnBits.ON + 1

def DISPLAY : Nat := AnnBits.ON + 2

end AnnInfo

/-- Contrast labels table (module-level `contrasts`). -/
def contrasts : List String :=
  ["1/16", "2/16", "4/16", "10/16", "11/16", "12/16", "13/16", "14/16"]

/-- Segment names table (module-level `segments`). -/
def segments : List String := ["a", "b", "c", "d", "e", "f", "g", "dp"]

/-- Font table `fonts`: 7-bit segment pattern (bits a..g) to glyph character.
The entry for `0b0100000` is the apostrophe character, written escaped. -/
def fonts : List (Nat × String) := [
  (0b0000000, " "),
  (0b0100000, "\x27"),
  (0b1000000, "-"),
  (0b0111111, "0"),
  (0b0000110, "1"),
  (0b1011011, "2"),
  (0b1001111, "3"),
  (0b1100110, "4"),
  (0b1101101, "5"),
  (0b1111101, "6"),
  (0b0000111, "7"),
  (0b1111111, "8"),
  (0b1101111, "9"),
  (0b1110111, "A"),
  (0b1111100, "b"),
  (0b0111001, "C"),
  (0b1011110, "d"),
  (0b1111001, "E"),
  (0b1110001, "F"),
  (0b1110110, "H"),
  (0b0110000, "I"),
  (0b0001110, "J"),
  (0b0111000, "L"),
  (0b1010100, "n"),
  (0b1011100, "o"),
  (0b1110011, "P"),
  (0b1010000, "r"),
  (0b1111000, "t"),
  (0b0111110, "U"),
  (0b0001111, "]"),
  (0b0001000, "_"),
  (0b1011000, "c"),
  (0b1110100, "h"),
  (0b0010000, "i"),
  (0b0011100, "u")]

/-- Membership test / lookup in `fonts`, modelling `mask in fonts` and
`fonts[mask]` of the Python dict (keys are distinct, so `find?` agrees with
the dict). -/
def fontsLookup (k : Nat) : Option String :=
  (fonts.find? (fun p => p.1 == k)).map (fun p => p.2)

/-- Annotation label lists for bit annotations (module-level dict `bits`);
total function, returning `[]` on indices absent from the dict (the source
only ever accesses present keys). -/
def bits : Nat → List String
  | 0 => ["Reserved", "Rsvd", "R"]
  | 1 => ["Write", "Wrt", "W"]
  | 2 => ["Read", "Rd", "R"]
  | 3 => ["Data command", "Data Cmd", "Data", "D"]
  | 4 => ["Display command", "Display Cmd", "Display", "S"]
  | 5 => ["Address command", "Address Cmd", "Address", "Addr", "A"]
  | 6 => ["AutoAddr", "Auto", "A"]
  | 7 => ["FixedAddr", "Fix", "F"]
  | 8 => ["Normal", "Nrm", "N"]
  | 9 => ["Test", "Tst", "T"]
  | 10 => ["Digit", "Dgt", "D"]
  | 11 => ["Contrast", "PWM", "C"]
  | 12 => ["OFF", "L"]
  | 13 => ["ON", "H"]
  | _ => []

/-- Annotation label lists for info annotations (module-level dict `info`). -/
def info : Nat → List String
  | 14 => ["Warnings", "Warn", "W"]
  | 15 => ["Tubes", "T"]
  | _ => []

/-- Python `a & ~m` for non-negative ints: clear in `a` every bit set in
`m`.  On `Nat` this is `a ^^^ (a &&& m)` (the bits of `a &&& m` are a
subset of the bits of `a`, so the xor removes exactly them). -/
def andNot (a m : Nat) : Nat := a ^^^ (a &&& m)

/-- Mask built by the `for i in range(lo, hi + 1): mask |= 1 << i` loops. -/
def bitMask (lo hi : Nat) : Nat :=
  (List.range' lo (hi + 1 - lo)).foldl (fun m i => m ||| (1 <<< i)) 0

/-- Python `str.strip()`: drop whitespace from both ends. -/
def pyStrip (s : String) : String :=
  ⟨((s.data.dropWhile (fun c => c.isWhitespace)).reverse.dropWhile
      (fun c => c.isWhitespace)).reverse⟩

/-- Insert a string into a list sorted by length descending, before the
first element of smaller or equal length.  Used to sort each list headwards
(so an element ends up before later elements of equal length, matching
Python's stable sort). -/
def insertByLenDesc (x : String) : List String → List String
  | [] => [x]
  | y :: ys =>
      if x.length ≥ y.length then x :: y :: ys
      else y :: insertByLenDesc x ys

/-- Python's stable `annots.sort(key=len, reverse=True)`. -/
def sortByLenDesc : List String → List String
  | [] => []
  | x :: xs => insertByLenDesc x (sortByLenDesc xs)

/-- Inner unit loop of `compose_annot`: starting from `item`, append each
unit in turn to the running string and record every intermediate value. -/
def unitFold (item : String) (units : List String) : List String :=
  (units.foldl (fun p u =>
    let it := p.1 ++ u
    (it, p.2 ++ [it])) ((item, ([] : List String)))).2

/-- Body of the per-label loop of `compose_annot`: the annotations appended
for one stripped label `ann` given the value and unit lists.  When the value
list is empty, `ann_item` stays `None` in the source and the bare label is
appended. -/
def annotsForLabel (ann : String) (values units : List String) : List String :=
  if values.isEmpty then [ann]
  else
    values.foldl (fun acc val =>
      let item := if ann.length > 0 then ann ++ ": " ++ val else val
      acc ++ item :: unitFold item units) []

/-- Module-level `compose_annot`.  The source normalises scalar arguments to
singleton lists and `None` to `[]`; callers below pass lists directly.
`ann_action` defaults to one empty action; the composed items are finally
sorted by length descending (stably). -/
def compose_annot (ann_label ann_value ann_unit ann_action : List String) :
    List String :=
  let acts := if ann_action.isEmpty then [""] else ann_action
  let main := acts.foldl (fun acc act =>
    ann_label.foldl (fun acc2 lbl =>
      acc2 ++ annotsForLabel (pyStrip (act ++ " " ++ lbl)) ann_value ann_unit)
      acc) []
  let tl :=
    if ann_value.isEmpty then []
    else (ann_label.drop (ann_label.length - 2)).filter
      (fun a => a.length > 0)
  sortByLenDesc (main ++ tl)

/-- One record emitted by a `self.put(ss, es, self.out_ann, [ann, annots])`
call: sample span, annotation index, candidate label strings. -/
structure Record where
  ss : Nat
  es : Nat
  ann : Nat
  annots : List String
deriving DecidableEq

/-- Decoder instance state: the attributes set by `Decoder.reset`. -/
structure DState where
  ss : Nat
  es : Nat
  ssb : Nat
  bits : List (Nat × Nat × Nat)
  write : Option Bool
  state : String
  auto : Option Bool
  position : Nat
  display : List String
deriving DecidableEq

/-- One call of `Decoder.decode(ss, es, (cmd, databyte))`.  `byte` carries
the byte value for `COMMAND`/`DATA` events, `bitlist` the bit triples
`(bitvalue, startsample, endsample)` for `BITS` events; the unused field of
each event kind is ignored by `decode`. -/
structure Event where
  ss : Nat
  es : Nat
  cmd : String
  byte : Nat
  bitlist : List (Nat × Nat × Nat)

/-- Python truthiness of the `self.auto` flag (`None` is falsy). -/
def truthy : Option Bool → Bool
  | some b => b
  | none => false

/-- Method `Decoder.putd`: span an annotation from the start sample of bit `ssbit`
to the end sample of bit `esbit` of the most recent `BITS` list.  The source
would raise `IndexError` past the end of the list; the model totalises the
indexing with a zero triple (no claim depends on out-of-range spans). -/
def putd (st : DState) (ssbit esbit : Nat) (a : Nat) (annots : List String) :
    Record :=
  { ss := (st.bits.getD ssbit (0, 0, 0)).2.1,
    es := (st.bits.getD esbit (0, 0, 0)).2.2,
    ann := a, annots := annots }

/-- Method `Decoder.putr`: one reserved-bit annotation per bit of the half-open
range.  Every call site passes an explicit nonzero end bit, so the
`end or (start + 1)` default of the source is not exercised. -/
def putr (st : DState) (start stop : Nat) : List Record :=
  let annots := compose_annot (bits AnnBits.RESERVED) [] [] []
  (List.range' start (stop - start)).map (fun bit =>
    { ss := (st.bits.getD bit (0, 0, 0)).2.1,
      es := (st.bits.getD bit (0, 0, 0)).2.2,
      ann := AnnBits.RESERVED, annots := annots })

/-- Method `Decoder.decimal_point`: `(".", ":")[self.options["dpoint"] == "Colon"]`.
The configuration is passed explicitly as the option's string value. -/
def decimal_point (dpoint : String) : String :=
  if dpoint = "Colon" then ":" else "."

/-- Method `Decoder.clear_data`: clear the display character buffer. -/
def clear_data (st : DState) : DState := { st with display := [] }

/-- Method `Decoder.reset`: set every instance attribute to its initial value
(`clear_data` supplies the display buffer). -/
def reset (st : DState) : DState :=
  clear_data { st with
    ss := 0, es := 0, ssb := 0, bits := [], write := none,
    state := "IDLE", auto := none, position := 0 }

/-- Method `Decoder.handle_command_data`: annotate reserved, mode, addressing and
read/write bits; record the addressing and direction flags. -/
def handle_command_data (st : DState) (data : Nat) : DState × List Record :=
  let r1 := putr st (DataBits.MODE + 1) CommandBits.MIN
  let annM := if (data >>> DataBits.MODE) &&& 1 = 1 then AnnBits.TEST
    else AnnBits.NORMAL
  let r2 := putd st DataBits.MODE DataBits.MODE annM
    (compose_annot (bits annM) [] [] [])
  let annA := if (data >>> DataBits.ADDR) &&& 1 = 1 then AnnBits.FIXED
    else AnnBits.AUTO
  let st1 := { st with auto := some (annA == AnnBits.AUTO) }
  let r3 := putd st1 DataBits.ADDR DataBits.ADDR annA
    (compose_annot (bits annA) [] [] [])
  let annW := if (data >>> DataBits.RW) &&& 1 = 1 then AnnBits.READ
    else AnnBits.WRITE
  let st2 := { st1 with write := some (annW == AnnBits.WRITE) }
  let r4 := putd st2 DataBits.RW DataBits.RW annW
    (compose_annot (bits annW) [] [] [])
  let r5 := putr st2 0 DataBits.RW
  (st2, r1 ++ [r2] ++ [r3] ++ [r4] ++ r5)

/-- Method `Decoder.handle_command_display`: annotate reserved and switch bits and
the contrast level; the decoder state is not changed. -/
def handle_command_display (st : DState) (data : Nat) : DState × List Record :=
  let r1 := putr st (DisplayBits.SWITCH + 1) CommandBits.MIN
  let annS := if (data >>> DisplayBits.SWITCH) &&& 1 = 1 then AnnBits.ON
    else AnnBits.OFF
  let r2 := putd st DisplayBits.SWITCH DisplayBits.SWITCH annS
    (compose_annot (bits annS) [] [] [])
  let mask := bitMask DisplayBits.MIN DisplayBits.MAX
  let pwm := contrasts.getD (data &&& mask) ""
  let r3 := putd st DisplayBits.MIN DisplayBits.MAX AnnBits.CONTRAST
    (compose_annot (bits AnnBits.CONTRAST) [pwm] [] [])
  (st, r1 ++ [r2] ++ [r3])

/-- Method `Decoder.handle_command_address`: annotate reserved and digit bits and
store the start address `(data & 0b111) + 1` for digit processing. -/
def handle_command_address (st : DState) (data : Nat) : DState × List Record :=
  let r1 := putr st (AddressBits.MAX + 1) CommandBits.MIN
  let mask := bitMask AddressBits.MIN AddressBits.MAX
  let adr := (data &&& mask) + 1
  let st1 := { st with position := adr }
  let r2 := putd st1 AddressBits.MIN AddressBits.MAX AnnBits.DIGIT
    (compose_annot (bits AnnBits.DIGIT) [toString adr] [] [])
  (st1, r1 ++ [r2])

/-- Method `Decoder.handle_command`: mask the command class bits 6..7, look the
value up among the `Command` attributes (definition order `DATA`, `DISPLAY`,
`ADDRESS`), annotate the class bits and run the matching handler on the
remaining bits; an unmatched class value runs nothing. -/
def handle_command (st : DState) (data : Nat) : DState × List Record :=
  let mask := bitMask CommandBits.MIN CommandBits.MAX
  let cmd := data &&& mask
  if cmd = Command.DATA then
    let r := putd st CommandBits.MIN CommandBits.MAX AnnBits.DATA
      (compose_annot (bits AnnBits.DATA) [] [] [])
    let p := handle_command_data st (andNot data mask)
    (p.1, r :: p.2)
  else if cmd = Command.DISPLAY then
    let r := putd st CommandBits.MIN CommandBits.MAX AnnBits.DISPLAY
      (compose_annot (bits AnnBits.DISPLAY) [] [] [])
    let p := handle_command_display st (andNot data mask)
    (p.1, r :: p.2)
  else if cmd = Command.ADDRESS then
    let r := putd st CommandBits.MIN CommandBits.MAX AnnBits.ADDRESS
      (compose_annot (bits AnnBits.ADDRESS) [] [] [])
    let p := handle_command_address st (andNot data mask)
    (p.1, r :: p.2)
  else (st, [])

/-- Method `Decoder.handle_data`: annotate each active segment bit, decode the
glyph (font character of the 7-bit pattern, unknown-character sentinel when
absent; a decimal point marker only inside the `if mask in fonts` branch),
append it to the display buffer, and auto-increment the address. -/
def handle_data (cfg : String) (st : DState) (data : Nat) :
    DState × List Record :=
  let recs := (List.range 8).filterMap (fun i =>
    if (data >>> i) &&& 1 = 1 then
      some (putd st i i AnnBits.DIGIT [segments.getD i ""])
    else none)
  let mask := andNot data (1 <<< 7)
  let cd : String × String :=
    match fontsLookup mask with
    | some c =>
        (c, if (data >>> 7) &&& 1 = 1 then decimal_point cfg else "")
    | none => (Params.UNKNOWN_CHAR, "")
  let st1 := { st with display := st.display ++ [cd.1 ++ cd.2] }
  let st2 := if truthy st1.auto then { st1 with position := st1.position + 1 }
    else st1
  (st2, recs)

/-- Method `Decoder.handle_info`: when the display buffer is non-empty, emit one
summary record spanning `self.ssb .. self.es` whose value is the
concatenation of the buffer; then clear the buffer. -/
def handle_info (st : DState) : DState × List Record :=
  let recs :=
    if st.display.isEmpty then []
    else
      let val := String.join st.display
      [{ ss := st.ssb, es := st.es, ann := AnnInfo.DISPLAY,
         annots := compose_annot (info AnnInfo.DISPLAY) [val] [] [] }]
  (clear_data st, recs)

/-- Method `Decoder.decode`: update the current sample span, stash `BITS` packets,
and run the string-labelled transmission state machine of the source. -/
def decode (cfg : String) (st : DState) (ev : Event) : DState × List Record :=
  let st := { st with ss := ev.ss, es := ev.es }
  if ev.cmd = "BITS" then ({ st with bits := ev.bitlist }, [])
  else if st.state = "IDLE" then
    if ev.cmd ≠ "START" then (st, [])
    else ({ st with ssb := st.ss, state := "REGISTER COMMAND" }, [])
  else if st.state = "REGISTER COMMAND" then
    if ev.cmd = "COMMAND" then
      let p := handle_command st ev.byte
      ({ p.1 with state := "REGISTER DATA" }, p.2)
    else if ev.cmd = "STOP" then ({ st with state := "IDLE" }, [])
    else (st, [])
  else if st.state = "REGISTER DATA" then
    if ev.cmd = "DATA" then handle_data cfg st ev.byte
    else if ev.cmd = "STOP" then
      let p := handle_info st
      ({ p.1 with state := "IDLE" }, p.2)
    else (st, [])
  else (st, [])

/-- Drive the decoder over a finite event list, concatenating the emitted
records in order (the upstream framework calls `decode` once per event). -/
def decodeAll (cfg : String) (st : DState) : List Event → DState × List Record
  | [] => (st, [])
  | ev :: evs =>
      let p := decode cfg st ev
      let q := decodeAll cfg p.1 evs
      (q.1, p.2 ++ q.2)

/-- State of a freshly constructed decoder: `__init__` calls `reset`. -/
def initState : DState :=
  reset { ss := 0, es := 0, ssb := 0, bits := [], write := none,
          state := "", auto := none, position := 0, display := [] }

/-- A concrete state with auto-addressing on, for concrete evaluations. -/
def autoOnState : DState := { initState with auto := some true, position := 3 }

/-- A concrete mid-transmission state (one glyph buffered, flags set). -/
def rdState : DState :=
  { initState with state := "REGISTER DATA", ssb := 5, display := ["0"],
                   auto := some true, write := some true, position := 4 }

/-- A concrete mid-transmission state with an empty display buffer. -/
def emptyBufState : DState :=
  { initState with state := "REGISTER DATA", ssb := 5 }

/-- A concrete state awaiting the command byte. -/
def rcState : DState := { initState with state := "REGISTER COMMAND" }

/-- Membership in `insertByLenDesc` is membership in the inputs. -/
lemma mem_insertByLenDesc {y x : String} {l : List String} :
    y ∈ insertByLenDesc x l ↔ y = x ∨ y ∈ l := by
  induction l with
  | nil => simp [insertByLenDesc]
  | cons z zs ih =>
      simp only [insertByLenDesc]
      split <;> simp [List.mem_cons, ih] <;> tauto

/-- Sorting by length preserves membership. -/
lemma mem_sortByLenDesc {y : String} {l : List String} :
    y ∈ sortByLenDesc l ↔ y ∈ l := by
  induction l with
  | nil => simp [sortByLenDesc]
  | cons x xs ih => simp [sortByLenDesc, mem_insertByLenDesc, ih]

/-- Inserting an element at least as long as every list element prepends. -/
lemma insertByLenDesc_cons_of_ge (x : String) (l : List String)
    (h : ∀ y ∈ l, y.length ≤ x.length) : insertByLenDesc x l = x :: l := by
  cases l with
  | nil => rfl
  | cons z zs =>
      simp only [insertByLenDesc]
      rw [if_pos (h z (by simp))]

/-- The longest candidate label of a display summary is the full label
`Tubes: ` followed by the summary value. -/
lemma head_compose_tubes (v : String) :
    (compose_annot (info AnnInfo.DISPLAY) [v] [] []).head? =
      some ("Tubes: " ++ v) := by
  have h1 : compose_annot (info AnnInfo.DISPLAY) [v] [] [] =
      insertByLenDesc ("Tubes" ++ (": " ++ v))
        (sortByLenDesc ["T" ++ (": " ++ v), "Tubes", "T"]) := rfl
  have h2 : "Tubes" ++ (": " ++ v) = "Tubes: " ++ v := by
    rw [← String.append_assoc]
    rfl
  have l5 : ("Tubes" : String).length = 5 := rfl
  have l1 : ("T" : String).length = 1 := rfl
  have l2 : (": " : String).length = 2 := rfl
  rw [h1, insertByLenDesc_cons_of_ge]
  · rw [List.head?_cons, h2]
  · intro y hy
    rw [mem_sortByLenDesc] at hy
    simp only [List.mem_cons, List.mem_singleton, List.not_mem_nil,
      or_false] at hy
    rcases hy with h | h | h <;> subst h <;>
      simp [String.length_append, l5, l1, l2] <;> omega

set_option maxRecDepth 8192 in
/-- For a byte, the command-class mask of `handle_command` is determined by
the top two bits: the four possible values of `byte >>> 6` give the four
class values (`0`, `Command.DATA`, `Command.DISPLAY`, `Command.ADDRESS`). -/
lemma byte_class_cases (a : Nat) (h : a < 256) :
    (a >>> 6 = 0 → a &&& bitMask CommandBits.MIN CommandBits.MAX = 0)
  ∧ (a >>> 6 = 1 →
      a &&& bitMask CommandBits.MIN CommandBits.MAX = Command.DATA)
  ∧ (a >>> 6 = 2 →
      a &&& bitMask CommandBits.MIN CommandBits.MAX = Command.DISPLAY)
  ∧ (a >>> 6 = 3 →
      a &&& bitMask CommandBits.MIN CommandBits.MAX = Command.ADDRESS) := by
  have hall : ∀ x : Fin 256,
      (x.val >>> 6 = 0 →
        x.val &&& bitMask CommandBits.MIN CommandBits.MAX = 0)
    ∧ (x.val >>> 6 = 1 →
        x.val &&& bitMask CommandBits.MIN CommandBits.MAX = Command.DATA)
    ∧ (x.val >>> 6 = 2 →
        x.val &&& bitMask CommandBits.MIN CommandBits.MAX = Command.DISPLAY)
    ∧ (x.val >>> 6 = 3 →
        x.val &&& bitMask CommandBits.MIN CommandBits.MAX = Command.ADDRESS) := by
    decide
  exact hall ⟨a, h⟩

set_option maxRecDepth 8192 in
/-- Clearing the class bits of a byte does not change its low address bits,
and those bits are at most 7. -/
lemma addr_low_bits (a : Nat) (h : a < 256) :
    (andNot a (bitMask CommandBits.MIN CommandBits.MAX)) &&&
        bitMask AddressBits.MIN AddressBits.MAX = a &&& 7
  ∧ a &&& 7 ≤ 7 := by
  have hall : ∀ x : Fin 256,
      (andNot x.val (bitMask CommandBits.MIN CommandBits.MAX)) &&&
          bitMask AddressBits.MIN AddressBits.MAX = x.val &&& 7
    ∧ x.val &&& 7 ≤ 7 := by decide
  exact hall ⟨a, h⟩

set_option maxRecDepth 8192 in
/-- Clearing the class bits of a byte does not change its addressing bit. -/
lemma data_bit2_eq (a : Nat) (h : a < 256) :
    ((andNot a (bitMask CommandBits.MIN CommandBits.MAX)) >>> DataBits.ADDR)
        &&& 1 = (a >>> 2) &&& 1 := by
  have hall : ∀ x : Fin 256,
      ((andNot x.val (bitMask CommandBits.MIN CommandBits.MAX)) >>>
          DataBits.ADDR) &&& 1 = (x.val >>> 2) &&& 1 := by decide
  exact hall ⟨a, h⟩

/-- C3 (amended): for every command byte whose top two bits are `11`, the
address stored by `handle_command` equals the value of bits 0..2 plus 1 and
lies in the range [1, 8] (the source does not clamp raw values 6 and 7 to
the 6 digit slots of the hardware). -/
theorem C3_thm (st : DState) (data : Nat) (h256 : data < 256)
    (hcls : data >>> 6 = 3) :
    (handle_command st data).1.position = (data &&& 7) + 1
  ∧ 1 ≤ (handle_command st data).1.position
  ∧ (handle_command st data).1.position ≤ 8 := by
  have hm := (byte_class_cases data h256).2.2.2 hcls
  have hlow := addr_low_bits data h256
  have hpos : (handle_command st data).1.position = (data &&& 7) + 1 := by
    simp only [handle_command, hm]
    norm_num [Command.DATA, Command.DISPLAY, Command.ADDRESS,
      handle_command_address, hlow.1]
  refine ⟨hpos, ?_, ?_⟩ <;> rw [hpos] <;> omega

/-- C3 witness: the address command byte `0xC5` stores digit slot 6. -/
theorem C3_witness :
    (handle_command initState 0xC5).1.position = (0xC5 &&& 7) + 1
  ∧ 1 ≤ (handle_command initState 0xC5).1.position
  ∧ (handle_command initState 0xC5).1.position ≤ 8 :=
  C3_thm initState 0xC5 (by decide) (by decide)

/-- C3 counterexample: the address command byte `0xC7` (bits 0..2 equal to
`0b111`) stores address 8, which is outside the claimed range [1, 6]. -/
theorem C3_counterexample :
    (handle_command initState 0xC7).1.position = (0xC7 &&& 7) + 1
  ∧ ¬ (handle_command initState 0xC7).1.position ≤ 6 := by decide

/-- C4: command dispatch is a function of the top two bits of the byte
alone: `01` runs the DATA handler, `10` the DISPLAY handler, `11` the
ADDRESS handler (each on the byte with the class bits cleared, after the
class-bits annotation record), and `00` runs no handler, emits nothing and
leaves the state unchanged. -/
theorem C4_thm (st : DState) (data : Nat) (h256 : data < 256) :
    (data >>> 6 = 0 → handle_command st data = (st, []))
  ∧ (data >>> 6 = 1 → handle_command st data =
      (let p := handle_command_data st
          (andNot data (bitMask CommandBits.MIN CommandBits.MAX))
       (p.1, putd st CommandBits.MIN CommandBits.MAX AnnBits.DATA
          (compose_annot (bits AnnBits.DATA) [] [] []) :: p.2)))
  ∧ (data >>> 6 = 2 → handle_command st data =
      (let p := handle_command_display st
          (andNot data (bitMask CommandBits.MIN CommandBits.MAX))
       (p.1, putd st CommandBits.MIN CommandBits.MAX AnnBits.DISPLAY
          (compose_annot (bits AnnBits.DISPLAY) [] [] []) :: p.2)))
  ∧ (data >>> 6 = 3 → handle_command st data =
      (let p := handle_command_address st
          (andNot data (bitMask CommandBits.MIN CommandBits.MAX))
       (p.1, putd st CommandBits.MIN CommandBits.MAX AnnBits.ADDRESS
          (compose_annot (bits AnnBits.ADDRESS) [] [] []) :: p.2))) := by
  have hc := byte_class_cases data h256
  refine ⟨fun h0 => ?_, fun h1 => ?_, fun h2 => ?_, fun h3 => ?_⟩
  · have hm := hc.1 h0
    simp only [handle_command, hm]
    norm_num [Command.DATA, Command.DISPLAY, Command.ADDRESS]
  · have hm := hc.2.1 h1
    simp only [handle_command, hm]
    norm_num [Command.DATA, Command.DISPLAY, Command.ADDRESS]
  · have hm := hc.2.2.1 h2
    simp only [handle_command, hm]
    norm_num [Command.DATA, Command.DISPLAY, Command.ADDRESS]
  · have hm := hc.2.2.2 h3
    simp only [handle_command, hm]
    norm_num [Command.DATA, Command.DISPLAY, Command.ADDRESS]

/-- C4 witness: dispatch of the four class patterns at concrete bytes 0x00,
0x40, 0x80 and 0xC0 from the freshly reset state. -/
theorem C4_witness :
    handle_command initState 0x00 = (initState, [])
  ∧ handle_command initState 0x40 =
      (let p := handle_command_data initState
          (andNot 0x40 (bitMask CommandBits.MIN CommandBits.MAX))
       (p.1, putd initState CommandBits.MIN CommandBits.MAX AnnBits.DATA
          (compose_annot (bits AnnBits.DATA) [] [] []) :: p.2))
  ∧ handle_command initState 0x80 =
      (let p := handle_command_display initState
          (andNot 0x80 (bitMask CommandBits.MIN CommandBits.MAX))
       (p.1, putd initState CommandBits.MIN CommandBits.MAX AnnBits.DISPLAY
          (compose_annot (bits AnnBits.DISPLAY) [] [] []) :: p.2))
  ∧ handle_command initState 0xC0 =
      (let p := handle_command_address initState
          (andNot 0xC0 (bitMask CommandBits.MIN CommandBits.MAX))
       (p.1, putd initState CommandBits.MIN CommandBits.MAX AnnBits.ADDRESS
          (compose_annot (bits AnnBits.ADDRESS) [] [] []) :: p.2)) :=
  ⟨(C4_thm initState 0x00 (by decide)).1 (by decide),
   (C4_thm initState 0x40 (by decide)).2.1 (by decide),
   (C4_thm initState 0x80 (by decide)).2.2.1 (by decide),
   (C4_thm initState 0xC0 (by decide)).2.2.2 (by decide)⟩

/-- Lemma: `handle_data` appends exactly the decoded glyph entry to the buffer:
the font character of the masked pattern followed by the decimal-point
marker only when the pattern is in the table and bit 7 is set, or the
unknown-character sentinel alone. -/
lemma handle_data_display (cfg : String) (st : DState) (data : Nat) :
    (handle_data cfg st data).1.display =
      st.display ++
        [match fontsLookup (andNot data (1 <<< 7)) with
         | some c =>
             c ++ (if (data >>> 7) &&& 1 = 1 then decimal_point cfg else "")
         | none => Params.UNKNOWN_CHAR] := by
  cases hf : fontsLookup (andNot data (1 <<< 7)) <;>
    simp only [handle_data, hf] <;> split <;> simp

/-- Lemma: `handle_data` increments the address exactly when the auto flag is
truthy. -/
lemma handle_data_position (cfg : String) (st : DState) (data : Nat) :
    (handle_data cfg st data).1.position =
      (if truthy st.auto then st.position + 1 else st.position) := by
  simp only [handle_data]
  split <;> simp_all

/-- Lemma: `handle_data` does not change the state-machine label. -/
lemma handle_data_state_pres (cfg : String) (st : DState) (data : Nat) :
    (handle_data cfg st data).1.state = st.state := by
  simp only [handle_data]
  split <;> simp

/-- C1 (amended): the decimal-point marker is appended exactly when bit 7
of the data byte is set and the masked 7-bit pattern is present in the
font table; when bit 7 is clear, or the pattern is unknown, the appended
entry is the bare glyph character with nothing after it. -/
theorem C1_thm (cfg : String) (st : DState) (data : Nat) :
    (∀ c, fontsLookup (andNot data (1 <<< 7)) = some c →
      ((data >>> 7) &&& 1 = 1 →
        (handle_data cfg st data).1.display =
          st.display ++ [c ++ decimal_point cfg])
      ∧ ((data >>> 7) &&& 1 = 0 →
        (handle_data cfg st data).1.display = st.display ++ [c]))
  ∧ (fontsLookup (andNot data (1 <<< 7)) = none →
      (handle_data cfg st data).1.display =
        st.display ++ [Params.UNKNOWN_CHAR]) := by
  refine ⟨fun c hc => ⟨fun hb => ?_, fun hb => ?_⟩, fun hn => ?_⟩
  · rw [handle_data_display, hc]
    simp only [hb]
    simp
  · rw [handle_data_display, hc]
    simp only [hb]
    simp
  · rw [handle_data_display, hn]

/-- C1 witness: data byte `0xBF` (pattern of `0`, bit 7 set) under the
`Colon` configuration appends the glyph with the colon marker. -/
theorem C1_witness :
    (handle_data "Colon" initState 0xBF).1.display =
      initState.display ++ ["0" ++ decimal_point "Colon"] :=
  ((C1_thm "Colon" initState 0xBF).1 "0" (by decide)).1 (by decide)

/-- C1 counterexample: data byte `0x81` has bit 7 set, but its 7-bit
pattern `0b0000001` is not in the font table, so the appended glyph is the
bare sentinel and does not end with a decimal-point marker (character code
46 is the dot). -/
theorem C1_counterexample :
    (0x81 >>> 7) &&& 1 = 1
  ∧ (handle_data "Dot" initState 0x81).1.display = ["?"]
  ∧ ("?" : String).data.getLast? ≠ some (Char.ofNat 46) := by decide

/-- C5: the glyph character is the font-table image of the data byte with
bit 7 masked off: pattern `0b0111111` yields `0`, and a pattern absent
from the table yields the unknown-character sentinel. -/
theorem C5_thm (cfg : String) (st : DState) (data : Nat) :
    fontsLookup 0b0111111 = some "0"
  ∧ (andNot data (1 <<< 7) = 0b0111111 →
      ∃ dp, (handle_data cfg st data).1.display =
        st.display ++ ["0" ++ dp])
  ∧ (fontsLookup (andNot data (1 <<< 7)) = none →
      (handle_data cfg st data).1.display =
        st.display ++ [Params.UNKNOWN_CHAR]) := by
  refine ⟨by decide, fun h63 => ?_, fun hn => ?_⟩
  · refine ⟨if (data >>> 7) &&& 1 = 1 then decimal_point cfg else "", ?_⟩
    rw [handle_data_display, h63]
    rfl
  · rw [handle_data_display, hn]

/-- C5 witness: data byte `0x3F` decodes to the glyph `0`; data byte
`0x82` (pattern `0b0000010`, absent from the table) decodes to the
sentinel. -/
theorem C5_witness :
    fontsLookup 0b0111111 = some "0"
  ∧ (∃ dp, (handle_data "Dot" initState 0x3F).1.display =
      initState.display ++ ["0" ++ dp])
  ∧ ((handle_data "Dot" initState 0x82).1.display =
      initState.display ++ [Params.UNKNOWN_CHAR]) :=
  ⟨(C5_thm "Dot" initState 0x3F).1,
   (C5_thm "Dot" initState 0x3F).2.1 (by decide),
   (C5_thm "Dot" initState 0x82).2.2 (by decide)⟩

/-- C7: a data command byte sets the auto-addressing flag exactly when its
bit 2 is 0; each processed data byte appends one glyph at the end of the
buffer, and increments the address exactly when the flag is truthy (so the
address is unchanged under fixed addressing). -/
theorem C7_thm (cfg : String) (st st2 : DState) (data b : Nat)
    (h256 : data < 256) (hcls : data >>> 6 = 1) :
    (handle_command st data).1.auto = some (((data >>> 2) &&& 1) == 0)
  ∧ (∃ g, (handle_data cfg st2 b).1.display = st2.display ++ [g])
  ∧ (handle_data cfg st2 b).1.position =
      (if truthy st2.auto then st2.position + 1 else st2.position) := by
  refine ⟨?_, ⟨_, handle_data_display cfg st2 b⟩,
    handle_data_position cfg st2 b⟩
  have hm := (byte_class_cases data h256).2.1 hcls
  have hb2 := data_bit2_eq data h256
  have h01 : (data >>> 2) &&& 1 = 0 ∨ (data >>> 2) &&& 1 = 1 := by
    rw [Nat.and_one_is_mod]
    omega
  simp only [handle_command, hm]
  norm_num [Command.DATA, Command.DISPLAY, Command.ADDRESS]
  rcases h01 with h | h <;> rw [Nat.and_one_is_mod] at h <;>
    simp [handle_command_data, hb2, h, AnnBits.AUTO, AnnBits.FIXED]

/-- C7 witness: command byte `0x40` (bit 2 clear) turns auto-addressing
on; a data byte appends a glyph and advances the address of a state whose
auto flag is on. -/
theorem C7_witness :
    (handle_command initState 0x40).1.auto = some (((0x40 >>> 2) &&& 1) == 0)
  ∧ (∃ g, (handle_data "Dot" autoOnState 0x3F).1.display =
      autoOnState.display ++ [g])
  ∧ (handle_data "Dot" autoOnState 0x3F).1.position =
      (if truthy autoOnState.auto then autoOnState.position + 1
       else autoOnState.position) :=
  C7_thm "Dot" initState autoOnState 0x40 0x3F (by decide) (by decide)

/-- C2 (amended): the STOP that closes a transmission clears the display
buffer and returns the machine to the idle state, but the current address
and the addressing/direction flags set by a data command are not cleared
and persist into subsequent transmissions. -/
theorem C2_thm (cfg : String) (st : DState) (ss es : Nat)
    (h : st.state = "REGISTER DATA") :
    (decode cfg st ⟨ss, es, "STOP", 0, []⟩).1.display = []
  ∧ (decode cfg st ⟨ss, es, "STOP", 0, []⟩).1.state = "IDLE"
  ∧ (decode cfg st ⟨ss, es, "STOP", 0, []⟩).1.auto = st.auto
  ∧ (decode cfg st ⟨ss, es, "STOP", 0, []⟩).1.write = st.write
  ∧ (decode cfg st ⟨ss, es, "STOP", 0, []⟩).1.position = st.position := by
  simp [decode, h, handle_info, clear_data]

/-- C2 witness: a STOP on a concrete mid-transmission state clears the
buffer but keeps address 4 and the auto/write flags. -/
theorem C2_witness :
    (decode "Dot" rdState ⟨10, 20, "STOP", 0, []⟩).1.display = []
  ∧ (decode "Dot" rdState ⟨10, 20, "STOP", 0, []⟩).1.state = "IDLE"
  ∧ (decode "Dot" rdState ⟨10, 20, "STOP", 0, []⟩).1.auto = rdState.auto
  ∧ (decode "Dot" rdState ⟨10, 20, "STOP", 0, []⟩).1.write = rdState.write
  ∧ (decode "Dot" rdState ⟨10, 20, "STOP", 0, []⟩).1.position =
      rdState.position :=
  C2_thm "Dot" rdState 10 20 rfl

/-- C2 counterexample: after the transmission `START, COMMAND 0x40, STOP`
completes, the auto-addressing flag set by the data command is still on;
in the next transmission `START, COMMAND 0xC2, DATA 0x3F` the data byte
therefore advances the address from 3 to 4, observably exposing context
from the earlier transmission (a cleared context would leave 3). -/
theorem C2_counterexample :
    (decodeAll "Dot" initState
      [⟨0, 1, "START", 0, []⟩, ⟨2, 3, "COMMAND", 0x40, []⟩,
       ⟨4, 5, "STOP", 0, []⟩]).1.auto = some true
  ∧ (decodeAll "Dot" initState
      [⟨0, 1, "START", 0, []⟩, ⟨2, 3, "COMMAND", 0x40, []⟩,
       ⟨4, 5, "STOP", 0, []⟩, ⟨6, 7, "START", 0, []⟩,
       ⟨8, 9, "COMMAND", 0xC2, []⟩,
       ⟨10, 11, "DATA", 0x3F, []⟩]).1.position = 4 := by decide

/-- C6: a STOP while awaiting data with a non-empty buffer emits exactly
one summary record spanning from the transmission start sample to the STOP
event's end sample, whose primary label carries the concatenation of the
buffer entries in arrival order; with an empty buffer nothing is emitted. -/
theorem C6_thm (cfg : String) (st : DState) (ss es : Nat)
    (h : st.state = "REGISTER DATA") :
    (st.display ≠ [] →
      ∃ r, (decode cfg st ⟨ss, es, "STOP", 0, []⟩).2 = [r]
        ∧ r.ss = st.ssb ∧ r.es = es ∧ r.ann = AnnInfo.DISPLAY
        ∧ r.annots.head? = some ("Tubes: " ++ String.join st.display))
  ∧ (st.display = [] → (decode cfg st ⟨ss, es, "STOP", 0, []⟩).2 = []) := by
  constructor
  · intro hne
    have hrecs : (decode cfg st ⟨ss, es, "STOP", 0, []⟩).2 =
        [{ ss := st.ssb, es := es, ann := AnnInfo.DISPLAY,
           annots := compose_annot (info AnnInfo.DISPLAY)
             [String.join st.display] [] [] }] := by
      simp [decode, h, handle_info, hne]
    exact ⟨_, hrecs, rfl, rfl, rfl, head_compose_tubes _⟩
  · intro he
    simp [decode, h, handle_info, he]

/-- C6 witness: a concrete STOP on a buffer holding one glyph emits the
single summary record; on an empty buffer it emits nothing. -/
theorem C6_witness :
    (∃ r, (decode "Dot" rdState ⟨10, 20, "STOP", 0, []⟩).2 = [r]
      ∧ r.ss = rdState.ssb ∧ r.es = 20 ∧ r.ann = AnnInfo.DISPLAY
      ∧ r.annots.head? = some ("Tubes: " ++ String.join rdState.display))
  ∧ (decode "Dot" emptyBufState ⟨10, 20, "STOP", 0, []⟩).2 = [] :=
  ⟨(C6_thm "Dot" rdState 10 20 rfl).1 (by decide),
   (C6_thm "Dot" emptyBufState 10 20 rfl).2 rfl⟩

/-- C8: a STOP while awaiting the command byte returns the machine to the
idle state and emits nothing; while idle, every event other than START
emits nothing and leaves the machine state, the transmission context and
the start-sample bound unchanged. -/
theorem C8_thm (cfg : String) (st : DState) (ss es : Nat) (ev : Event) :
    (st.state = "REGISTER COMMAND" →
        (decode cfg st ⟨ss, es, "STOP", 0, []⟩).1.state = "IDLE"
      ∧ (decode cfg st ⟨ss, es, "STOP", 0, []⟩).2 = [])
  ∧ (st.state = "IDLE" → ev.cmd ≠ "START" →
        (decode cfg st ev).2 = []
      ∧ (decode cfg st ev).1.state = "IDLE"
      ∧ (decode cfg st ev).1.display = st.display
      ∧ (decode cfg st ev).1.auto = st.auto
      ∧ (decode cfg st ev).1.write = st.write
      ∧ (decode cfg st ev).1.position = st.position
      ∧ (decode cfg st ev).1.ssb = st.ssb) := by
  constructor
  · intro h
    simp [decode, h]
  · intro h hs
    by_cases hb : ev.cmd = "BITS" <;> simp [decode, h, hs, hb]

/-- C8 witness: a concrete STOP right after START emits nothing and
returns to idle; a concrete STOP while idle changes nothing. -/
theorem C8_witness :
    ((decode "Dot" rcState ⟨0, 1, "STOP", 0, []⟩).1.state = "IDLE"
      ∧ (decode "Dot" rcState ⟨0, 1, "STOP", 0, []⟩).2 = [])
  ∧ ((decode "Dot" initState ⟨2, 3, "STOP", 0, []⟩).2 = []
      ∧ (decode "Dot" initState ⟨2, 3, "STOP", 0, []⟩).1.state = "IDLE"
      ∧ (decode "Dot" initState ⟨2, 3, "STOP", 0, []⟩).1.display =
          initState.display
      ∧ (decode "Dot" initState ⟨2, 3, "STOP", 0, []⟩).1.auto =
          initState.auto
      ∧ (decode "Dot" initState ⟨2, 3, "STOP", 0, []⟩).1.write =
          initState.write
      ∧ (decode "Dot" initState ⟨2, 3, "STOP", 0, []⟩).1.position =
          initState.position
      ∧ (decode "Dot" initState ⟨2, 3, "STOP", 0, []⟩).1.ssb =
          initState.ssb) :=
  ⟨(C8_thm "Dot" rcState 0 1 ⟨2, 3, "STOP", 0, []⟩).1 rfl,
   (C8_thm "Dot" initState 0 1 ⟨2, 3, "STOP", 0, []⟩).2 rfl (by decide)⟩

/-- C9: running a finite event sequence on a freshly reset decoder, then
resetting and running the same sequence again, emits identical record
sequences (same order, spans, categories and labels).  `reset` overwrites
every instance attribute, so the decoder's output is a pure function of
the configuration and the event sequence. -/
theorem C9_thm (cfg : String) (evs : List Event) (s0 : DState) :
    (decodeAll cfg (reset ((decodeAll cfg (reset s0) evs).1)) evs).2 =
      (decodeAll cfg (reset s0) evs).2 := rfl

/-- Lemma: `handle_command` never touches the display buffer. -/
lemma handle_command_display_pres (st : DState) (data : Nat) :
    (handle_command st data).1.display = st.display := by
  simp only [handle_command]
  split_ifs <;>
    simp [handle_command_data, handle_command_display,
      handle_command_address]

/-- One `decode` step preserves the invariant that outside the data phase
the display buffer is empty. -/
lemma decode_display_inv (cfg : String) (st : DState) (ev : Event)
    (h : st.state = "REGISTER DATA" ∨ st.display = []) :
    (decode cfg st ev).1.state = "REGISTER DATA"
  ∨ (decode cfg st ev).1.display = [] := by
  have hne : st.state = "IDLE" → st.display = [] := by
    intro hI
    rcases h with h | h
    · rw [hI] at h
      exact absurd h (by decide)
    · exact h
  have hne2 : st.state = "REGISTER COMMAND" → st.display = [] := by
    intro hC
    rcases h with h | h
    · rw [hC] at h
      exact absurd h (by decide)
    · exact h
  by_cases hB : ev.cmd = "BITS"
  · simp only [decode, hB, if_pos, if_true]
    simpa using h
  by_cases hI : st.state = "IDLE"
  · by_cases hS : ev.cmd = "START"
    · right
      simp [decode, hB, hI, hS, hne hI]
    · right
      simp [decode, hB, hI, hS, hne hI]
  by_cases hC : st.state = "REGISTER COMMAND"
  · by_cases hcmd : ev.cmd = "COMMAND"
    · left
      simp [decode, hB, hI, hC, hcmd]
    · by_cases hstop : ev.cmd = "STOP" <;> right <;>
        simp [decode, hB, hI, hC, hcmd, hstop, hne2 hC]
  by_cases hD : st.state = "REGISTER DATA"
  · by_cases hdata : ev.cmd = "DATA"
    · left
      rw [show (decode cfg st ev).1 =
          (handle_data cfg { st with ss := ev.ss, es := ev.es } ev.byte).1 by
        simp [decode, hB, hI, hC, hD, hdata]]
      rw [handle_data_state_pres]
      exact hD
    · by_cases hstop : ev.cmd = "STOP"
      · right
        simp [decode, hB, hI, hC, hD, hdata, hstop, handle_info, clear_data]
      · left
        simp [decode, hB, hI, hC, hD, hdata, hstop]
  · rcases h with h | h
    · exact absurd h hD
    · right
      simp [decode, hB, hI, hC, hD, h]

/-- C10: in every state reachable from the freshly constructed decoder the
display buffer is empty whenever the machine is idle or awaiting the
command byte; moreover a single step from any state outside the data phase
never adds a buffer entry. -/
theorem C10_thm (cfg : String) (evs : List Event) (st2 : DState)
    (ev2 : Event) :
    (((decodeAll cfg initState evs).1.state = "IDLE"
        ∨ (decodeAll cfg initState evs).1.state = "REGISTER COMMAND") →
      (decodeAll cfg initState evs).1.display = [])
  ∧ (st2.state ≠ "REGISTER DATA" →
      (decode cfg st2 ev2).1.display = st2.display) := by
  constructor
  · have key : ∀ st, (st.state = "REGISTER DATA" ∨ st.display = []) →
        ((decodeAll cfg st evs).1.state = "REGISTER DATA"
          ∨ (decodeAll cfg st evs).1.display = []) := by
      induction evs with
      | nil =>
          intro st h
          simpa [decodeAll] using h
      | cons ev evs ih =>
          intro st h
          simp only [decodeAll]
          exact ih _ (decode_display_inv cfg st ev h)
    intro hst
    rcases key initState (Or.inr rfl) with hk | hk
    · rcases hst with h | h <;> rw [h] at hk <;> exact absurd hk (by decide)
    · exact hk
  · intro hne
    by_cases hB : ev2.cmd = "BITS"
    · simp [decode, hB]
    by_cases hI : st2.state = "IDLE"
    · by_cases hS : ev2.cmd = "START" <;> simp [decode, hB, hI, hS]
    by_cases hC : st2.state = "REGISTER COMMAND"
    · by_cases hcmd : ev2.cmd = "COMMAND"
      · simp [decode, hB, hI, hC, hcmd, handle_command_display_pres]
      · by_cases hstop : ev2.cmd = "STOP" <;>
          simp [decode, hB, hI, hC, hcmd, hstop]
    · by_cases hD : st2.state = "REGISTER DATA"
      · exact absurd hD hne
      · simp [decode, hB, hI, hC, hD]

/-- C10 witness: after a concrete complete transmission the machine is
idle with an empty buffer, and a STOP step from the fresh state leaves the
buffer unchanged. -/
theorem C10_witness :
    (decodeAll "Dot" initState
      [⟨0, 1, "START", 0, []⟩, ⟨2, 3, "COMMAND", 0x40, []⟩,
       ⟨4, 5, "DATA", 0x3F, []⟩, ⟨6, 7, "STOP", 0, []⟩]).1.display = []
  ∧ (decode "Dot" initState ⟨8, 9, "STOP", 0, []⟩).1.display =
      initState.display :=
  ⟨(C10_thm "Dot"
      [⟨0, 1, "START", 0, []⟩, ⟨2, 3, "COMMAND", 0x40, []⟩,
       ⟨4, 5, "DATA", 0x3F, []⟩, ⟨6, 7, "STOP", 0, []⟩]
      initState ⟨8, 9, "STOP", 0, []⟩).1 (by decide),
   (C10_thm "Dot"
      [⟨0, 1, "START", 0, []⟩, ⟨2, 3, "COMMAND", 0x40, []⟩,
       ⟨4, 5, "DATA", 0x3F, []⟩, ⟨6, 7, "STOP", 0, []⟩]
      initState ⟨8, 9, "STOP", 0, []⟩).2 (by decide)⟩

end TM1637
